import Mathlib

/-!
Verification of the PANhunt mail-container readers (src/formats/pst.py and
src/formats/msmsg.py) against their natural-language specification.

Shallow embedding conventions:
* On-disk byte strings are `List Nat`, one entry per byte (< 256 where it
  matters; stated as hypotheses).  `struct.unpack` of little-endian integer
  fields is `leUint` on the corresponding slice.
* `fd.seek`/`fd.read` pairs become slices of a `file : List Nat`.
* Python exceptions become `Except PError _` results; `while` loops that can
  diverge on adversarial input take a fuel argument and return `Option`,
  `none` marking fuel exhaustion (or an uncaught low-level error such as
  `struct.error`/`IndexError`, noted locally).
* Value decoding (`ptype.value`/`ptype.get_value`, i.e. bytes -> int/str/...)
  is kept abstract as a tagged pair of the property type and the exact bytes
  the source hands to the decoder; none of the checked claims depends on the
  decoded value itself, only on which bytes are decoded or whether a null is
  produced.
-/

namespace PANhunt

/-- Little-endian unsigned integer of a byte list, as `struct.unpack` with
formats I/H/Q does on the matching slice (panutils.unpack_integer). -/
def leUint (bs : List Nat) : Nat :=
  bs.foldr (fun b acc => b + 256 * acc) 0

/-- Python domain errors raised by the readers, by detection site.
`PANHuntException` carriers are the constructors except `unsupportedEncryption`,
which models the `RuntimeError("Unsupported encryption method.")` in
`Block.__init__`. -/
inductive PError where
  | blockBidMismatch
  | blockSizeMismatch
  | invalidBlockLevel
  | invalidBlockType
  | unsupportedEncryption
  | invalidBBTEntry
  | fatStreamSizeMismatch
  | invalidBTHType
  | invalidPType
  | rowMatrixSubnodeInvalid
  | duplicateRowPropId
  | propStreamSizeError
  | duplicatePropertyID
  | propEntrySizeMismatch
  | missingChildStream
  /-- Uncaught Python `struct.error`: an unpack applied to a slice that does
  not have the exact length its format demands. -/
  | structError
  deriving DecidableEq, Repr

/-- Decidable equality for Except results (used to evaluate the embedded
readers on concrete inputs). -/
instance exceptDecidableEq {ε α : Type} [DecidableEq ε] [DecidableEq α] :
    DecidableEq (Except ε α) := fun a b =>
  match a, b with
  | .ok x, .ok y =>
    if h : x = y then .isTrue (by rw [h]) else .isFalse (by simp [h])
  | .error x, .error y =>
    if h : x = y then .isTrue (by rw [h]) else .isFalse (by simp [h])
  | .ok _, .error _ => .isFalse (by simp)
  | .error _, .ok _ => .isFalse (by simp)

/-! ## NDB_CRYPT_PERMUTE (pst.py, Block.mpbbCryptFrom512) -/

/-- The fixed 256-entry substitution table `Block.mpbbCryptFrom512`,
transcribed verbatim from pst.py lines 348-355. -/
def mpbbCryptFrom512 : List Nat :=
  [71, 241, 180, 230, 11, 106, 114, 72, 133, 78, 158, 235, 226, 248, 148, 83,
  224, 187, 160, 2, 232, 90, 9, 171, 219, 227, 186, 198, 124, 195, 16, 221,
  57, 5, 150, 48, 245, 55, 96, 130, 140, 201, 19, 74, 107, 29, 243, 251,
  143, 38, 151, 202, 145, 23, 1, 196, 50, 45, 110, 49, 149, 255, 217, 35,
  209, 0, 94, 121, 220, 68, 59, 26, 40, 197, 97, 87, 32, 144, 61, 131,
  185, 67, 190, 103, 210, 70, 66, 118, 192, 109, 91, 126, 178, 15, 22, 41,
  60, 169, 3, 84, 13, 218, 93, 223, 246, 183, 199, 98, 205, 141, 6, 211,
  105, 92, 134, 214, 20, 247, 165, 102, 117, 172, 177, 233, 69, 33, 112, 12,
  135, 159, 116, 164, 34, 76, 111, 191, 31, 86, 170, 46, 179, 120, 51, 80,
  176, 163, 146, 188, 207, 25, 28, 167, 99, 203, 30, 77, 62, 75, 27, 155,
  79, 231, 240, 238, 173, 58, 181, 89, 4, 234, 64, 85, 37, 81, 229, 122,
  137, 56, 104, 82, 123, 252, 39, 174, 215, 189, 250, 7, 244, 204, 142, 95,
  239, 53, 156, 132, 43, 21, 213, 119, 52, 73, 182, 18, 10, 127, 113, 136,
  253, 157, 24, 65, 125, 147, 216, 88, 44, 206, 254, 36, 175, 222, 184, 54,
  200, 161, 128, 166, 153, 152, 168, 47, 14, 129, 101, 115, 228, 194, 162, 138,
  212, 225, 17, 208, 8, 139, 42, 242, 237, 154, 100, 63, 193, 108, 249, 236]

/-- Source `bytes.maketrans(range(256), mpbbCryptFrom512)` followed by
`payload.translate(...)` substitutes each byte b by `mpbbCryptFrom512[b]`. -/
def decryptByte (b : Nat) : Nat :=
  mpbbCryptFrom512.getD b 0

/-- The inverse permutation of `mpbbCryptFrom512`: entry v is the index i with
`mpbbCryptFrom512[i] = v` (the spec's "inverse table"). -/
def mpbbCryptInverse : List Nat :=
  (List.range 256).map (fun v => mpbbCryptFrom512.indexOf v)

/-- Substitution through the inverse table (re-encoding a decoded block). -/
def encryptByte (b : Nat) : Nat :=
  mpbbCryptInverse.getD b 0

/-! ## Subject prefix stripping (pst.py, LTP.strip_SubjectPrefix)

Python `str` values are modelled as lists of code units. -/

/-- Source `LTP.strip_SubjectPrefix`: if the subject is non-empty (truthy) and its
first code unit is 0x01, drop the first two code units, else return it
unchanged. -/
def strip_SubjectPrefix (Subject : List Nat) : List Nat :=
  match Subject with
  | [] => Subject
  | c :: _ => if c = 0x01 then Subject.drop 2 else Subject

/-! ## CFB directory entry stream size (msmsg.py, DirectoryEntry.__init__) -/

/-- The `StreamSize` field of a 128-byte CFB directory entry record:
`unpack('Q', directory_bytes[120:128])`, then masked to the low 32 bits
when the container's MajorVersion is 3. -/
def directoryEntryStreamSize (MajorVersion : Nat) (directory_bytes : List Nat) : Nat :=
  let raw := leUint ((directory_bytes.drop 120).take 8)
  if MajorVersion = 3 then raw &&& 0xFFFFFFFF else raw

/-! ## CFB header (msmsg.py, MSCFB.read_header)

The reader seeks to 0 and reads the 512-byte header region; we model the file
contents as `file : List Nat` and the sequential reads as slices at the
accumulated offsets (8 signature, 16 CLSID, 10 version words, 6 skipped,
16 + 20 counters, 436 DIFAT). -/

def ENDOFCHAIN : Nat := 0xFFFFFFFE

def FREESECT : Nat := 0xFFFFFFFF

def cfbSignature : List Nat := [0xD0, 0xCF, 0x11, 0xE0, 0xA1, 0xB1, 0x1A, 0xE1]

/-- Fields kept from a successfully validated header (the ones the later
layers read). -/
structure CFBHeader where
  MinorVersion : Nat
  MajorVersion : Nat
  FirstDirectorySectorLocation : Nat
  MiniStreamCutoffSize : Nat
  FirstMiniFATSectorLocation : Nat
  MiniFATSectors : Nat
  FirstDIFATSectorLocation : Nat
  DIFAT : List Nat
  deriving DecidableEq, Repr

/-- Outcome of `MSCFB.read_header`: the invalid-flag state (`validCFB = False`,
returned without exception), the raised "More than 109 DIFAT entries not
supported" exception, or a valid header. -/
inductive HeaderOutcome where
  | invalid
  | difatUnsupported
  | valid (h : CFBHeader)
  deriving DecidableEq, Repr

/-- The 109 DIFAT entries, `unpack('I'*109, fd.read(436))` at offset 76. -/
def headerDIFAT (file : List Nat) : List Nat :=
  (List.range 109).map (fun i => leUint ((file.drop (76 + 4 * i)).take 4))

/-- Source `MSCFB.read_header`.  `none` models an uncaught `struct.error` on a file
too short for one of the fixed-size unpacks (all of which happen before any
outcome-relevant difference, so they are collapsed into two length guards). -/
def read_header (file : List Nat) : Option HeaderOutcome :=
  if file.take 8 ≠ cfbSignature then some .invalid
  else if file.length < 34 then none
  else
    let MinorVersion := leUint ((file.drop 24).take 2)
    let MajorVersion := leUint ((file.drop 26).take 2)
    if MajorVersion ≠ 3 ∧ MajorVersion ≠ 4 then some .invalid
    else if file.length < 512 then none
    else
      let FirstDIFATSectorLocation := leUint ((file.drop 68).take 4)
      if FirstDIFATSectorLocation ≠ ENDOFCHAIN then some .difatUnsupported
      else some (.valid
        { MinorVersion := MinorVersion
          MajorVersion := MajorVersion
          FirstDirectorySectorLocation := leUint ((file.drop 48).take 4)
          MiniStreamCutoffSize := leUint ((file.drop 56).take 4)
          FirstMiniFATSectorLocation := leUint ((file.drop 60).take 4)
          MiniFATSectors := leUint ((file.drop 64).take 4)
          FirstDIFATSectorLocation := FirstDIFATSectorLocation
          DIFAT := headerDIFAT file })

/-! ## FAT / MiniFAT stream assembly (msmsg.py, FAT.get_stream and
MiniFAT.get_stream)

Both loops walk `entries` from a start sector until `ENDOFCHAIN`,
concatenating one sector's bytes per step.  The loop takes fuel; `none`
models divergence on a cyclic chain or the `IndexError` of
`self.entries[sector]` out of range. -/

/-- The sectors visited by the chain walk, in order. -/
def chainSectors (entries : List Nat) : Nat → Nat → Option (List Nat)
  | 0, _ => none
  | fuel + 1, sector =>
    if sector = ENDOFCHAIN then some []
    else
      match entries[sector]? with
      | none => none
      | some next => (chainSectors entries fuel next).map (fun l => sector :: l)

/-- The common while-loop of `FAT.get_stream` / `MiniFAT.get_stream`:
`stream_bytes += sectorBytes(sector); sector = entries[sector]`. -/
def getStreamLoop (entries : List Nat) (sectorBytes : Nat → List Nat) :
    Nat → Nat → List Nat → Option (List Nat)
  | 0, _, _ => none
  | fuel + 1, sector, acc =>
    if sector = ENDOFCHAIN then some acc
    else
      match entries[sector]? with
      | none => none
      | some next => getStreamLoop entries sectorBytes fuel next (acc ++ sectorBytes sector)

/-- Size check and truncation shared by both `get_stream` variants, verbatim:
`if size > len(stream_bytes) or size < len(stream_bytes) - SectorSize: raise`
(Python subtraction, hence the `Int` cast) else `return stream_bytes[:size]`. -/
def streamSizeCheck (SectorSize size : Nat) (stream : List Nat) :
    Except PError (List Nat) :=
  if size > stream.length ∨ (size : Int) < (stream.length : Int) - (SectorSize : Int) then
    .error .fatStreamSizeMismatch
  else
    .ok (stream.take size)

/-- Source `FAT.get_stream(sector, size)`; `sectorBytes` abstracts
`mscfb.get_sector_bytes` (a fixed-length read at `(sector+1)*SectorSize`). -/
def FAT.get_stream (entries : List Nat) (sectorBytes : Nat → List Nat)
    (SectorSize sector size fuel : Nat) : Option (Except PError (List Nat)) :=
  (getStreamLoop entries sectorBytes fuel sector []).map (streamSizeCheck SectorSize size)

/-- Source `MiniFAT.get_stream(sector, size)`: sector bytes are 64-byte slices of the
mini stream, `mini_stream_bytes[sector*64 : sector*64 + 64]`. -/
def MiniFAT.get_stream (entries mini_stream_bytes : List Nat)
    (sector size fuel : Nat) : Option (Except PError (List Nat)) :=
  FAT.get_stream entries
    (fun s => (mini_stream_bytes.drop (s * 64)).take 64) 64 sector size fuel

/-! ## CFB property stream (msmsg.py, PropertyStream / PropertyEntry) -/

/-- Source `{byte_count, is_variable, is_multi}` of an `MsgPTypeWrapper` /
`PstPTypeWrapper`. -/
structure PTypeInfo where
  byte_count : Nat
  is_variable : Bool
  is_multi : Bool
  deriving DecidableEq, Repr

/-- The `MSMSG.ptype_mapping` table (msmsg.py lines 836-870), keyed by the
numeric property-type code.  Modelled from the spec: the numeric values of
`PTypeEnum` live in enums.py, which is not under src/; they are the standard
[MS-OXCDATA] property-type codes the spec's data model refers to
(PtypInteger16 = 0x0002, ..., PtypBinary = 0x0102, multi-valued = base
OR 0x1000, PtypUnspecified = 0x0000, PtypNull = 0x0001, PtypObject = 0x000D). -/
def msgPtypeMapping (t : Nat) : Option PTypeInfo :=
  if t = 0x0002 then some ⟨2, false, false⟩
  else if t = 0x0003 then some ⟨4, false, false⟩
  else if t = 0x0004 then some ⟨4, false, false⟩
  else if t = 0x0005 then some ⟨8, false, false⟩
  else if t = 0x0006 then some ⟨8, false, false⟩
  else if t = 0x0007 then some ⟨8, false, false⟩
  else if t = 0x000A then some ⟨4, false, false⟩
  else if t = 0x000B then some ⟨1, false, false⟩
  else if t = 0x0014 then some ⟨8, false, false⟩
  else if t = 0x001F then some ⟨0, true, false⟩
  else if t = 0x001E then some ⟨0, true, false⟩
  else if t = 0x0040 then some ⟨8, false, false⟩
  else if t = 0x0048 then some ⟨16, false, false⟩
  else if t = 0x00FB then some ⟨2, false, true⟩
  else if t = 0x00FD then some ⟨0, true, false⟩
  else if t = 0x00FE then some ⟨2, false, true⟩
  else if t = 0x0102 then some ⟨2, false, true⟩
  else if t = 0x1002 then some ⟨2, false, true⟩
  else if t = 0x1003 then some ⟨2, false, true⟩
  else if t = 0x1004 then some ⟨2, false, true⟩
  else if t = 0x1005 then some ⟨2, false, true⟩
  else if t = 0x1006 then some ⟨2, false, true⟩
  else if t = 0x1007 then some ⟨2, false, true⟩
  else if t = 0x1014 then some ⟨2, false, true⟩
  else if t = 0x101F then some ⟨2, true, true⟩
  else if t = 0x101E then some ⟨2, true, true⟩
  else if t = 0x1040 then some ⟨2, false, true⟩
  else if t = 0x1048 then some ⟨2, false, true⟩
  else if t = 0x1102 then some ⟨2, false, true⟩
  else if t = 0x0000 then some ⟨0, false, false⟩
  else if t = 0x0001 then some ⟨0, false, false⟩
  else if t = 0x000D then some ⟨0, false, false⟩
  else none

/-- A constructed `PropertyEntry`.  `allocId` models Python object identity:
each call of the constructor yields a fresh object, and the stream loop below
allocates ids sequentially.  `valueBytes` is the byte string the source hands
to `ptype.get_value` (value decoding is abstracted, see the file header). -/
structure PropertyEntrym where
  allocId : Nat
  PropertyTag : Nat
  Flags : Nat
  PropertyID : Nat
  PropertyType : Nat
  size : Nat
  valueBytes : List Nat
  deriving DecidableEq, Repr

/-- The sibling streams of a storage that `PropertyEntry.__init__` may read:
`__substg1.0_<TAG>` (keyed here by the numeric tag) and the per-index streams
`__substg1.0_<TAG>-<i>` of multi+variable values.  `none` = no such child
(Python `KeyError` on `parent_dir_entry.children[...]`). -/
structure MsgStorageEnv where
  substgData : Nat → Option (List Nat)
  substgIndexData : Nat → Nat → Option (List Nat)

/-- Joins the per-index streams of a multi+variable property, in index order;
errors if one is missing. -/
def joinIndexStreams (env : MsgStorageEnv) (tag : Nat) :
    Nat → Except PError (List Nat)
  | 0 => .ok []
  | n + 1 =>
    match joinIndexStreams env tag n with
    | .error e => .error e
    | .ok acc =>
      match env.substgIndexData tag n with
      | none => .error .missingChildStream
      | some bs => .ok (acc ++ bs)

/-- Source `PropertyEntry.__init__` over one 16-byte record (msmsg.py lines
436-484). -/
def PropertyEntry.init (env : MsgStorageEnv) (allocId : Nat)
    (property_entry_bytes : List Nat) : Except PError PropertyEntrym :=
  let propertyTag := leUint (property_entry_bytes.take 4)
  let Flags := leUint ((property_entry_bytes.drop 4).take 4)
  let PropertyID := propertyTag >>> 16
  let PropertyType := propertyTag &&& 0xFFFF
  match msgPtypeMapping PropertyType with
  | none => .error .invalidPType
  | some ptype =>
    if ptype.is_variable ∨ ptype.is_multi then
      let size := leUint ((property_entry_bytes.drop 8).take 4)
      match env.substgData propertyTag with
      | none => .error .missingChildStream
      | some property_bytes =>
        if property_bytes.length ≠ size ∧
            ((PropertyType = 0x001F ∧ property_bytes.length + 2 ≠ size) ∨
             (PropertyType = 0x001E ∧ property_bytes.length + 1 ≠ size)) then
          .error .propEntrySizeMismatch
        else if ptype.is_multi ∧ ptype.is_variable then
          let len_item_size := if PropertyType = 0x1102 then 8 else 4
          match joinIndexStreams env propertyTag (property_bytes.length / len_item_size) with
          | .error e => .error e
          | .ok joined =>
            .ok ⟨allocId, propertyTag, Flags, PropertyID, PropertyType, size, joined⟩
        else
          .ok ⟨allocId, propertyTag, Flags, PropertyID, PropertyType, size, property_bytes⟩
    else
      let size := ptype.byte_count
      .ok ⟨allocId, propertyTag, Flags, PropertyID, PropertyType, size,
        (property_entry_bytes.drop 8).take size⟩

/-- Python dict assignment `d[k] = v`: replace in place if the key exists,
else append. -/
def dictInsert {α : Type} (k : Nat) (v : α) : List (Nat × α) → List (Nat × α)
  | [] => [(k, v)]
  | (k0, v0) :: rest => if k0 = k then (k, v) :: rest else (k0, v0) :: dictInsert k v rest

/-- Source `prop_entry in self.properties.values()`: list membership via `==`, which
for `PropertyEntry` (no `__eq__` defined) falls back to object identity.
A freshly constructed entry is identical to a stored one exactly when their
allocation ids coincide. -/
def identityMem (e : PropertyEntrym) (vals : List PropertyEntrym) : Bool :=
  vals.any (fun v => v.allocId = e.allocId)

/-- The record loop of `PropertyStream.__init__`: `remaining` records left,
`i` the index of the next record, `dict` the properties dictionary so far. -/
def propStreamLoop (env : MsgStorageEnv) (property_bytes : List Nat)
    (header_size : Nat) :
    Nat → Nat → List (Nat × PropertyEntrym) → Except PError (List (Nat × PropertyEntrym))
  | 0, _, dict => .ok dict
  | remaining + 1, i, dict =>
    match PropertyEntry.init env i
        ((property_bytes.drop (header_size + i * 16)).take 16) with
    | .error e => .error e
    | .ok prop_entry =>
      if identityMem prop_entry (dict.map Prod.snd) then
        .error .duplicatePropertyID
      else
        propStreamLoop env property_bytes header_size remaining (i + 1)
          (dictInsert prop_entry.PropertyID prop_entry dict)

/-- Source `PropertyStream.__init__` (msmsg.py lines 390-412), restricted to the
properties dictionary it builds.  The 24-byte recipient/attachment-count
header unpack is skipped (none of its fields feeds the dictionary).  The
`(len - header_size)` arithmetic is Python int subtraction; callers pass
`header_size ≤ len`, which the theorems assume. -/
def PropertyStream.init (env : MsgStorageEnv) (header_size : Nat)
    (property_bytes : List Nat) : Except PError (List (Nat × PropertyEntrym)) :=
  if property_bytes.isEmpty then .ok []
  else if (property_bytes.length - header_size) % 16 ≠ 0 then
    .error .propStreamSizeError
  else
    propStreamLoop env property_bytes header_size
      ((property_bytes.length - header_size) / 16) 0 []

/-! ## PST node database (pst.py): NID, BID, SLENTRY, SIENTRY, Block -/

/-- Source `NID.__init__` from 4 bytes: low 5 bits type, the rest index. -/
structure NIDm where
  nid : Nat
  nidType : Nat
  nidIndex : Nat
  deriving DecidableEq, Repr

def NID.ofNat (n : Nat) : NIDm :=
  { nid := n, nidType := n &&& 0x1F, nidIndex := n &&& 0xFFFFFFE0 }

def NID.ofBytes (payload : List Nat) : NIDm :=
  NID.ofNat (leUint payload)

/-- Source `NID.NID_TYPE_HID = 0x00`. -/
def NID_TYPE_HID : Nat := 0x00

/-- Source `BID.__init__`: 4 (ANSI) or 8 (Unicode) bytes; the reserved low bit is
cleared, bit 1 marks internal blocks. -/
structure BIDm where
  bid : Nat
  is_internal : Bool
  deriving DecidableEq, Repr

/-- Parses a BID.  The source dispatches on `len(payload) == 4` (unpack 'I')
with unpack 'Q' in the else branch, so any length other than exactly 4 or 8
raises `struct.error` (`none` here); both unpacks are the little-endian
integer of the whole payload. -/
def BID.ofBytes (payload : List Nat) : Option BIDm :=
  if payload.length = 4 ∨ payload.length = 8 then
    let raw := leUint payload
    let b := if raw % 2 = 1 then raw - 1 else raw
    some { bid := b, is_internal := b &&& 2 = 2 }
  else none

/-- Source `SLENTRY.__init__`: ANSI 12 bytes `(nid, bidData, bidSub)`; Unicode 24
bytes `(nid, padding, bidData, bidSub)`. -/
structure SLENTRYm where
  nid : NIDm
  bidData : BIDm
  bidSub : BIDm
  deriving DecidableEq, Repr

/-- Parses an SLENTRY.  A 12-byte payload takes the ANSI `unpack('4s4s4s')`
layout; any other length takes the Unicode `unpack('4s4s8s8s')` branch, which
raises `struct.error` (`none`) unless the payload is exactly 24 bytes. -/
def SLENTRY.ofBytes (payload : List Nat) : Option SLENTRYm :=
  if payload.length = 12 then
    (BID.ofBytes ((payload.drop 4).take 4)).bind fun bidData =>
      (BID.ofBytes ((payload.drop 8).take 4)).map fun bidSub =>
        { nid := NID.ofBytes (payload.take 4), bidData := bidData, bidSub := bidSub }
  else if payload.length = 24 then
    (BID.ofBytes ((payload.drop 8).take 8)).bind fun bidData =>
      (BID.ofBytes ((payload.drop 16).take 8)).map fun bidSub =>
        { nid := NID.ofBytes (payload.take 4), bidData := bidData, bidSub := bidSub }
  else none

/-- Source `SIENTRY.__init__`: ANSI 8 bytes `(nid, bid)`; Unicode 16 bytes
`(nid, padding, bid)`. -/
structure SIENTRYm where
  nid : NIDm
  bid : BIDm
  deriving DecidableEq, Repr

/-- Parses an SIENTRY.  An 8-byte payload takes the ANSI layout; any other
length takes the Unicode `unpack('4s4s8s')` branch, which raises
`struct.error` (`none`) unless the payload is exactly 16 bytes. -/
def SIENTRY.ofBytes (payload : List Nat) : Option SIENTRYm :=
  if payload.length = 8 then
    (BID.ofBytes ((payload.drop 4).take 4)).map fun bid =>
      { nid := NID.ofBytes (payload.take 4), bid := bid }
  else if payload.length = 16 then
    (BID.ofBytes ((payload.drop 8).take 8)).map fun bid =>
      { nid := NID.ofBytes (payload.take 4), bid := bid }
  else none

inductive SLSIEntry where
  | sl (e : SLENTRYm)
  | si (e : SIENTRYm)
  deriving DecidableEq, Repr

/-- The shape-dependent part of a decoded `Block`. -/
inductive BlockContent where
  /-- External data block: the (decoded) payload bytes. -/
  | data (data_block : List Nat)
  /-- XBLOCK (`cLevel = 1`) or XXBLOCK (`cLevel = 2`): `lcbTotal` and `rgbid`. -/
  | xlist (lcbTotal : Nat) (rgbid : List BIDm)
  /-- SLBLOCK (`cLevel = 0`) or SIBLOCK (`cLevel = 1`): `rgentries`. -/
  | subnode (rgentries : List SLSIEntry)
  deriving DecidableEq, Repr

/-- A decoded `Block` (pst.py class Block). `block_type` uses the source's
codes: 0 data, 1 XBLOCK, 2 XXBLOCK, 3 SLBLOCK, 4 SIBLOCK. -/
structure Blockm where
  cb : Nat
  wSig : Nat
  dwCRC : Nat
  bid : BIDm
  offset : Nat
  block_type : Nat
  btype : Nat
  cLevel : Nat
  content : BlockContent
  deriving DecidableEq, Repr

/-- Crypt method codes of `CryptMethodEnum`: Unencoded = 0,
NDB_CRYPT_PERMUTE = 1; anything else is unsupported. -/
def CryptUnencoded : Nat := 0

def CryptPermute : Nat := 1

/-- The `(cb, wSig, bid, dwCRC)` block trailer unpack of `Block.__init__`:
ANSI `unpack('HH4sI', payload[-12:])`, Unicode `unpack('HHI8s',
payload[-16:])`.  On a payload shorter than the trailer the negative-index
slice is the whole payload and the unpack raises `struct.error` (`none`). -/
structure BlockTrailer where
  cb : Nat
  wSig : Nat
  dwCRC : Nat
  bid : BIDm
  deriving DecidableEq, Repr

def blockTrailer (payload : List Nat) (is_ansi : Bool) : Option BlockTrailer :=
  if is_ansi then
    if payload.length < 12 then none
    else
      let trailer := payload.drop (payload.length - 12)
      (BID.ofBytes ((trailer.drop 4).take 4)).map fun bid =>
        { cb := leUint (trailer.take 2)
          wSig := leUint ((trailer.drop 2).take 2)
          dwCRC := leUint ((trailer.drop 8).take 4)
          bid := bid }
  else
    if payload.length < 16 then none
    else
      let trailer := payload.drop (payload.length - 16)
      (BID.ofBytes ((trailer.drop 8).take 8)).map fun bid =>
        { cb := leUint (trailer.take 2)
          wSig := leUint ((trailer.drop 2).take 2)
          dwCRC := leUint ((trailer.drop 4).take 4)
          bid := bid }

/-- The external (non-internal bid) branch of `Block.__init__`: a data block,
decoded per the crypt method (the `CryptMethodEnum` comparisons of the
source; any value other than 0/1 raises). -/
def Block.initExternal (payload : List Nat) (offset data_size : Nat)
    (t : BlockTrailer) (bCryptMethod : Nat) : Except PError Blockm :=
  if bCryptMethod = CryptPermute then
    .ok ⟨t.cb, t.wSig, t.dwCRC, t.bid, offset, 0, 0, 0,
      .data ((payload.take data_size).map decryptByte)⟩
  else if bCryptMethod = CryptUnencoded then
    .ok ⟨t.cb, t.wSig, t.dwCRC, t.bid, offset, 0, 0, 0, .data (payload.take data_size)⟩
  else .error .unsupportedEncryption

/-- Models the entry-parsing loops of the internal block branch:
`for i in range(cEnt): append(TYPE(payload[off + i*size : off + (i+1)*size]))`,
parsing entries in index order and propagating the first `struct.error`
(`none`) of a record constructor.  `i` is the next index, the second `Nat`
the number of entries left. -/
def parseEntriesAux {α : Type} (parse : List Nat → Option α) (payload : List Nat)
    (off size : Nat) : Nat → Nat → Option (List α)
  | _, 0 => some []
  | i, n + 1 =>
    match parse ((payload.drop (off + i * size)).take size) with
    | none => none
    | some e =>
      (parseEntriesAux parse payload off size (i + 1) n).map (fun l => e :: l)

def parseEntries {α : Type} (parse : List Nat → Option α) (payload : List Nat)
    (off size cEnt : Nat) : Option (List α) :=
  parseEntriesAux parse payload off size 0 cEnt

/-- The internal branch of `Block.__init__`: `unpack('BBH', payload[:4])`
(exactly 4 bytes or `struct.error`), then XBLOCK/XXBLOCK (btype 1, whose
`lcbTotal` unpack needs bytes 4..8) or SLBLOCK/SIBLOCK (btype 2).  The ANSI
quirk is kept from the source: SL/SI entries start at payload offset 4 (no
4-byte padding after the `(btype, cLevel, cEnt)` header), Unicode at
offset 8.  Entry slices that are shorter than their unpack demands raise
`struct.error` inside the record constructors (see the entry parsers). -/
def Block.initInternal (payload : List Nat) (offset : Nat) (is_ansi : Bool)
    (t : BlockTrailer) : Except PError Blockm :=
  let bid_size := if is_ansi then 4 else 8
  let slentry_size := if is_ansi then 12 else 24
  let sientry_size := if is_ansi then 8 else 16
  let sl_si_entries_offset := if is_ansi then 4 else 8
  if payload.length < 4 then .error .structError
  else
    let btype := payload.getD 0 0
    let cLevel := payload.getD 1 0
    let cEnt := leUint ((payload.drop 2).take 2)
    if btype = 1 then
      if payload.length < 8 then .error .structError
      else
        let lcbTotal := leUint ((payload.drop 4).take 4)
        if cLevel = 1 ∨ cLevel = 2 then
          match parseEntries BID.ofBytes payload 8 bid_size cEnt with
          | none => .error .structError
          | some rgbid =>
            if cLevel = 1 then
              .ok ⟨t.cb, t.wSig, t.dwCRC, t.bid, offset, 1, 1, 1, .xlist lcbTotal rgbid⟩
            else
              .ok ⟨t.cb, t.wSig, t.dwCRC, t.bid, offset, 2, 1, 2, .xlist lcbTotal rgbid⟩
        else .error .invalidBlockLevel
    else if btype = 2 then
      if cLevel = 0 then
        match parseEntries SLENTRY.ofBytes payload sl_si_entries_offset slentry_size cEnt with
        | none => .error .structError
        | some es =>
          .ok ⟨t.cb, t.wSig, t.dwCRC, t.bid, offset, 3, 2, 0, .subnode (es.map .sl)⟩
      else if cLevel = 1 then
        match parseEntries SIENTRY.ofBytes payload sl_si_entries_offset sientry_size cEnt with
        | none => .error .structError
        | some es =>
          .ok ⟨t.cb, t.wSig, t.dwCRC, t.bid, offset, 4, 2, 1, .subnode (es.map .si)⟩
      else .error .invalidBlockLevel
    else .error .invalidBlockType

/-- Source `Block.__init__(payload, offset, data_size, is_ansi, bid_check,
bCryptMethod)` (pst.py lines 384-477): trailer unpack (struct.error on a
short payload), bid and size checks, then the external or internal branch on
the trailer bid's internal flag. -/
def Block.init (payload : List Nat) (offset data_size : Nat) (is_ansi : Bool)
    (bid_check : BIDm) (bCryptMethod : Nat) : Except PError Blockm :=
  match blockTrailer payload is_ansi with
  | none => .error .structError
  | some t =>
    if t.bid.bid ≠ bid_check.bid then .error .blockBidMismatch
    else if data_size ≠ t.cb then .error .blockSizeMismatch
    else if ¬ t.bid.is_internal then
      Block.initExternal payload offset data_size t bCryptMethod
    else Block.initInternal payload offset is_ansi t

/-- Source `NBD.fetch_block(bid)` (pst.py lines 506-530) consults the BBT for
`(ib, cb)`, rounds `cb + trailer` up to 64 bytes, reads that many bytes at
`ib` and decodes.  `blockReadSize` is the rounding; in `NBD.fetch_block`,
`file` is the PST file contents and `bbt` the BBT leaf map
(`bid -> (ib, cb)`). -/
def blockReadSize (is_ansi : Bool) (data_size : Nat) : Nat :=
  let block_trailer_size := if is_ansi then 12 else 16
  let size_diff := (data_size + block_trailer_size) % 64
  if size_diff = 0 then data_size + block_trailer_size
  else data_size + block_trailer_size + 64 - size_diff

/-- The fetch itself: look up the BBT and decode the block read at the
entry's offset. -/
def NBD.fetch_block (file : List Nat) (bbt : Nat → Option (Nat × Nat))
    (is_ansi : Bool) (bCryptMethod : Nat) (bid : BIDm) : Except PError Blockm :=
  match bbt bid.bid with
  | none => .error .invalidBBTEntry
  | some (offset, data_size) =>
    Block.init ((file.drop offset).take (blockReadSize is_ansi data_size))
      offset data_size is_ansi bid bCryptMethod

/-! ## HID and BTH (pst.py, classes HID, BTHData, BTHIntermediate, BTH) -/

/-- Source `HID.__init__` from 4 bytes: 16-bit word = 5-bit type + 11-bit index,
then a 16-bit page (block) index. -/
structure HIDm where
  hidType : Nat
  hidIndex : Nat
  hidBlockIndex : Nat
  deriving DecidableEq, Repr

def HID.ofBytes (payload : List Nat) : HIDm :=
  let raw := leUint (payload.take 2)
  { hidType := raw &&& 0x1F
    hidIndex := (raw >>> 5) &&& 0x7FF
    hidBlockIndex := leUint ((payload.drop 2).take 2) }

/-- A record split out by `BTH.get_bth_records`: a `BTHData` leaf record or a
`BTHIntermediate` record carrying the level it was read at. -/
inductive BTHRecord where
  | data (key data : List Nat)
  | inter (key : List Nat) (hidNextLevel : HIDm) (bIdxLevel : Nat)
  deriving DecidableEq, Repr

/-- Source `BTH.get_bth_records(payload, bIdxLevel)`: at level 0 leaf records of size
`cbKey + cbEnt`, else intermediate records of size `cbKey + 4`. -/
def get_bth_records (cbKey cbEnt : Nat) (payload : List Nat) (bIdxLevel : Nat) :
    List BTHRecord :=
  if bIdxLevel = 0 then
    let record_size := cbKey + cbEnt
    (List.range (payload.length / record_size)).map fun i =>
      .data ((payload.drop (i * record_size)).take cbKey)
        ((payload.drop (i * record_size + cbKey)).take cbEnt)
  else
    let record_size := cbKey + 4
    (List.range (payload.length / record_size)).map fun i =>
      .inter ((payload.drop (i * record_size)).take cbKey)
        (HID.ofBytes ((payload.drop (i * record_size + cbKey)).take 4)) bIdxLevel

/-- The `BTHData` records of a record list (the `isinstance` filter). -/
def bthDataOf : List BTHRecord → List (List Nat × List Nat)
  | [] => []
  | .data k d :: rest => (k, d) :: bthDataOf rest
  | .inter _ _ _ :: rest => bthDataOf rest

/-- The `BTHIntermediate` records of a record list (the `isinstance` filter). -/
def bthInterOf : List BTHRecord → List (List Nat × HIDm × Nat)
  | [] => []
  | .data _ _ :: rest => bthInterOf rest
  | .inter k h l :: rest => (k, h, l) :: bthInterOf rest

/-- The `while bth_working_stack:` loop of `BTH.__init__` (pst.py lines
772-781), modelled verbatim: each iteration pops the last intermediate,
fetches the next-level payload and recomputes `bth_record_list` from it
(`_recs`, unused afterwards exactly as in the source, because
`bth_data_list` and `bth_intermediate_list` are NOT reassigned inside the
loop); it then extends the accumulator with the lists that were split from
the ROOT payload.  `rootData`/`rootInter` are those stale root-level lists. -/
def bthLoop (hidData : HIDm → List Nat) (cbKey cbEnt : Nat)
    (rootData : List (List Nat × List Nat)) (rootInter : List (List Nat × HIDm × Nat)) :
    Nat → List (List Nat × HIDm × Nat) → List (List Nat × List Nat) →
    Option (List (List Nat × List Nat))
  | 0, _, _ => none
  | fuel + 1, stack, acc =>
    match stack.getLast? with
    | none => some acc
    | some im =>
      let stack1 := stack.dropLast
      let _recs := get_bth_records cbKey cbEnt (hidData im.2.1) (im.2.2 - 1)
      if im.2.2 - 1 = 0 then
        bthLoop hidData cbKey cbEnt rootData rootInter fuel stack1 (acc ++ rootData)
      else
        bthLoop hidData cbKey cbEnt rootData rootInter fuel (stack1 ++ rootInter) acc

/-- A decoded `BTH`. -/
structure BTHm where
  bType : Nat
  cbKey : Nat
  cbEnt : Nat
  bIdxLevels : Nat
  hidRoot : HIDm
  bth_data_list : List (List Nat × List Nat)
  deriving DecidableEq, Repr

/-- Source `HN.bTypeBTH = 0xB5`. -/
def bTypeBTH : Nat := 0xB5

/-- Source `BTH.__init__(hn, bth_hid)` (pst.py lines 742-781).  `hidData` abstracts
`hn.get_hid_data`; `none` is fuel exhaustion of the working-stack loop or a
`struct.error` on a header that is not exactly 8 bytes. -/
def BTH.init (hidData : HIDm → List Nat) (bth_hid : HIDm) (fuel : Nat) :
    Option (Except PError BTHm) :=
  let hdr := hidData bth_hid
  if hdr.length ≠ 8 then none
  else
    let bType := hdr.getD 0 0
    let cbKey := hdr.getD 1 0
    let cbEnt := hdr.getD 2 0
    let bIdxLevels := hdr.getD 3 0
    let hidRoot := HID.ofBytes (hdr.drop 4)
    if bType ≠ bTypeBTH then some (.error .invalidBTHType)
    else if hidRoot.hidIndex = 0 then
      some (.ok ⟨bType, cbKey, cbEnt, bIdxLevels, hidRoot, []⟩)
    else
      let recs := get_bth_records cbKey cbEnt (hidData hidRoot) bIdxLevels
      let rootData := bthDataOf recs
      let rootInter := bthInterOf recs
      if bIdxLevels = 0 then
        some (.ok ⟨bType, cbKey, cbEnt, bIdxLevels, hidRoot, rootData⟩)
      else
        (bthLoop hidData cbKey cbEnt rootData rootInter fuel rootInter []).map
          (fun l => .ok ⟨bType, cbKey, cbEnt, bIdxLevels, hidRoot, l⟩)

/-- The leaf records that actually sit in the leaf nodes reachable from a
one-intermediate-level root: for each intermediate record of the root page,
the `BTHData` records of its next-level page.  (What the spec's traversal is
meant to collect when `bIdxLevels = 1`.) -/
def bthLevel1LeafRecords (hidData : HIDm → List Nat) (cbKey cbEnt : Nat)
    (rootInter : List (List Nat × HIDm × Nat)) : List (List Nat × List Nat) :=
  (rootInter.map (fun im => bthDataOf (get_bth_records cbKey cbEnt (hidData im.2.1) 0))).flatten

/-! ## Table context rows (pst.py, TC.setup_row_matrix / TC.get_row_cell_value) -/

/-- The `LTP.ptypes` table (pst.py lines 1263-1297); identical to
`msgPtypeMapping` except `PtypObject`, which is `(4, False, True)` here.
The numeric codes are modelled from the spec as for `msgPtypeMapping`. -/
def pstPtypes (t : Nat) : Option PTypeInfo :=
  if t = 0x000D then some ⟨4, false, true⟩ else msgPtypeMapping t

/-- A decoded `TCOLDESC` column descriptor. -/
structure TCOLDESCm where
  wPropType : Nat
  wPropId : Nat
  ibData : Nat
  cbData : Nat
  iBit : Nat
  deriving DecidableEq, Repr

/-- Source `TCOLDESC.__init__`: `unpack('HHHBB', payload)`. -/
def TCOLDESC.ofBytes (payload : List Nat) : TCOLDESCm :=
  { wPropType := leUint (payload.take 2)
    wPropId := leUint ((payload.drop 2).take 2)
    ibData := leUint ((payload.drop 4).take 2)
    cbData := payload.getD 6 0
    iBit := payload.getD 7 0 }

/-- The four `rgib` offsets of a `TCINFO`, named by their `TCI_*` index
(TCI_4b = 0, TCI_2b = 1, TCI_1b = 2, TCI_bm = 3). -/
structure RGIB where
  tci4b : Nat
  tci2b : Nat
  tci1b : Nat
  tcibm : Nat
  deriving DecidableEq, Repr

/-- The cell-existence test of `TC.setup_row_matrix` (pst.py lines
1184-1189): the bitmap slice starts at row offset `rgib[TCI_1b]`, and bit
`iBit` is `(rgbCEB[iBit // 8] & (1 << (7 - iBit % 8))) != 0`.  `getD _ 0`
stands for the in-range list indexing of the source. -/
def is_fCEB (row_bytes : List Nat) (rgib : RGIB) (iBit : Nat) : Bool :=
  ((row_bytes.drop rgib.tci1b).getD (iBit / 8) 0) &&& (1 <<< (7 - iBit % 8)) ≠ 0

/-- The presence test in the words of the claim under check: identical except
that the bitmap is taken at row offset `rgib[TCI_bm]`.  This is the
spec-side definition kept for comparison against `is_fCEB`, which is the
source's. -/
def is_fCEB_claimed (row_bytes : List Nat) (rgib : RGIB) (iBit : Nat) : Bool :=
  ((row_bytes.drop rgib.tcibm).getD (iBit / 8) 0) &&& (1 <<< (7 - iBit % 8)) ≠ 0

/-- The `data_bytes` handed to `get_row_cell_value` for one column of one
row: the cell's `[ibData, ibData + cbData)` slice when its existence bit is
set, else `None`. -/
def cell_data_bytes (row_bytes : List Nat) (rgib : RGIB) (t : TCOLDESCm) :
    Option (List Nat) :=
  if is_fCEB row_bytes rgib t.iBit then
    some ((row_bytes.drop t.ibData).take t.cbData)
  else none

/-- Python dict lookup on the assoc-list model. -/
def dictLookup {α : Type} (k : Nat) : List (Nat × α) → Option α
  | [] => none
  | (k0, v) :: rest => if k0 = k then some v else dictLookup k rest

/-- The parts of the HN an in-row value resolution can touch:
`hn.get_hid_data`, the sub-node map (`[]` models both `None` and an empty
dict, which are equally falsy at the `if self.hn.subnodes and ...` guard),
and `nbd.fetch_all_block_data` for a sub-node data bid. -/
structure TCEnv where
  hidData : HIDm → List Nat
  subnodes : List (Nat × SLENTRYm)
  blockData : Nat → List (List Nat)

/-- Source `TC.get_row_cell_value(data_bytes, tcoldesc)` (pst.py lines 1203-1232).
A decoded value is the pair of the property type and the exact bytes the
source passes to `ptype.value`; `none` is the source's `None`. -/
def get_row_cell_value (env : TCEnv) (data_bytes : Option (List Nat))
    (t : TCOLDESCm) : Except PError (Option (Nat × List Nat)) :=
  match data_bytes with
  | none => .ok none
  | some bs =>
    match pstPtypes t.wPropType with
    | none => .error .invalidPType
    | some ptype =>
      if ¬ ptype.is_variable ∧ ¬ ptype.is_multi then
        if ptype.byte_count ≤ 8 then .ok (some (t.wPropType, bs))
        else .ok (some (t.wPropType, env.hidData (HID.ofBytes bs)))
      else if (NID.ofBytes bs).nidType = NID_TYPE_HID then
        .ok (some (t.wPropType, env.hidData (HID.ofBytes bs)))
      else
        match dictLookup (NID.ofBytes bs).nid env.subnodes with
        | none => .error .rowMatrixSubnodeInvalid
        | some sl => .ok (some (t.wPropType, (env.blockData sl.bidData.bid).flatten))

/-- The per-row column loop of `TC.setup_row_matrix` (pst.py lines
1186-1200): for each column test the existence bit, reject duplicate
property ids, and store the (possibly null) cell value in the row's
property map. -/
def buildRowVals (env : TCEnv) (row_bytes : List Nat) (rgib : RGIB) :
    List TCOLDESCm → List (Nat × Option (Nat × List Nat)) →
    Except PError (List (Nat × Option (Nat × List Nat)))
  | [], rowvals => .ok rowvals
  | t :: rest, rowvals =>
    if (dictLookup t.wPropId rowvals).isSome then .error .duplicateRowPropId
    else
      match get_row_cell_value env (cell_data_bytes row_bytes rgib t) t with
      | .error e => .error e
      | .ok v => buildRowVals env row_bytes rgib rest (dictInsert t.wPropId v rowvals)

/-! # Theorems -/

/-- C8: for every string Subject, strip_SubjectPrefix returns Subject with its
first two code units removed when Subject is non-empty and its first code unit
is 0x01, and returns Subject unchanged otherwise, the empty string included
(returned without error). -/
theorem strip_SubjectPrefix_spec (s : List Nat) :
    (∀ c t, s = c :: t → c = 0x01 → strip_SubjectPrefix s = s.drop 2) ∧
    (∀ c t, s = c :: t → c ≠ 0x01 → strip_SubjectPrefix s = s) ∧
    (s = [] → strip_SubjectPrefix s = s) := by
  refine ⟨?_, ?_, ?_⟩
  · rintro c t rfl rfl
    simp [strip_SubjectPrefix]
  · rintro c t rfl hc
    simp [strip_SubjectPrefix, hc]
  · rintro rfl
    rfl

/-- Witness for C8 at Subject = [0x01, 0x58, 0x59]. -/
theorem strip_SubjectPrefix_spec_witness :
    strip_SubjectPrefix [0x01, 0x58, 0x59] = [0x59] :=
  (strip_SubjectPrefix_spec [0x01, 0x58, 0x59]).1 0x01 [0x58, 0x59] rfl rfl

/-- Helper: masking with 0xFFFFFFFF is reduction mod 2^32. -/
theorem nat_and_mask32 (x : Nat) : x &&& 0xFFFFFFFF = x % 2 ^ 32 := by
  apply Nat.eq_of_testBit_eq
  intro i
  rw [Nat.testBit_mod_two_pow, Nat.testBit_and]
  have h : (0xFFFFFFFF : Nat) = 2 ^ 32 - 1 := by norm_num
  rw [h, Nat.testBit_two_pow_sub_one, Bool.and_comm]

/-- C7: the 64-bit StreamSize of a CFB directory entry is masked to its low
32 bits when MajorVersion is 3 (the upper 32 bits are cleared for every
possible value), and kept in full when MajorVersion is 4. -/
theorem directoryEntryStreamSize_spec (bs : List Nat) (lo hi : Nat)
    (hlo : lo < 2 ^ 32)
    (hraw : leUint ((bs.drop 120).take 8) = lo + 2 ^ 32 * hi) :
    directoryEntryStreamSize 3 bs = lo ∧
    directoryEntryStreamSize 4 bs = lo + 2 ^ 32 * hi := by
  have h3 : directoryEntryStreamSize 3 bs = leUint ((bs.drop 120).take 8) &&& 0xFFFFFFFF := by
    simp [directoryEntryStreamSize]
  have h4 : directoryEntryStreamSize 4 bs = leUint ((bs.drop 120).take 8) := by
    simp [directoryEntryStreamSize]
  rw [h3, h4, hraw, nat_and_mask32]
  exact ⟨by omega, rfl⟩

/-- Witness for C7: StreamSize bytes encoding 1 + 2^32 * 5. -/
theorem directoryEntryStreamSize_spec_witness :
    directoryEntryStreamSize 3 (List.replicate 120 0 ++ [1, 0, 0, 0, 5, 0, 0, 0]) = 1 ∧
    directoryEntryStreamSize 4 (List.replicate 120 0 ++ [1, 0, 0, 0, 5, 0, 0, 0])
      = 1 + 2 ^ 32 * 5 :=
  directoryEntryStreamSize_spec (List.replicate 120 0 ++ [1, 0, 0, 0, 5, 0, 0, 0]) 1 5
    (by norm_num) (by norm_num [leUint, List.drop_append_eq_append_drop])

set_option maxRecDepth 8192 in
/-- Helper for C2: the inverse table undoes the substitution on every byte. -/
theorem encrypt_decrypt_byte : ∀ b, b < 256 → encryptByte (decryptByte b) = b := by
  decide

/-- Helper: a successfully decoded internal block never has the data
block_type 0 (it is 1..4). -/
theorem initInternal_ok_block_type (payload : List Nat) (offset : Nat)
    (is_ansi : Bool) (t : BlockTrailer) (blk : Blockm)
    (h : Block.initInternal payload offset is_ansi t = .ok blk) :
    blk.block_type ≠ 0 := by
  unfold Block.initInternal at h
  dsimp only at h
  repeat' split at h
  all_goals first
    | exact Except.noConfusion h
    | (cases Except.ok.inj h; simp)

set_option maxRecDepth 8192 in
/-- C2: the fixed 256-entry NDB_CRYPT_PERMUTE table is a permutation of the
byte values 0..255 that is not an involution; decoding a data block under
crypt method 1 substitutes every payload byte through the table; and
translating the decoded bytes through the inverse permutation restores the
original bytes. -/
theorem ndbCryptPermute_spec :
    (mpbbCryptFrom512.length = 256 ∧ mpbbCryptFrom512.Nodup ∧
      ∀ b ∈ mpbbCryptFrom512, b < 256) ∧
    (∃ b, b < 256 ∧ decryptByte (decryptByte b) ≠ b) ∧
    (∀ (payload : List Nat) (offset ds : Nat) (is_ansi : Bool) (bc : BIDm)
      (blk : Blockm),
      Block.init payload offset ds is_ansi bc CryptPermute = .ok blk →
      blk.block_type = 0 →
      blk.content = .data ((payload.take ds).map decryptByte)) ∧
    (∀ bs : List Nat, (∀ b ∈ bs, b < 256) →
      (bs.map decryptByte).map encryptByte = bs) := by
  refine ⟨by decide, ⟨0, by decide, by decide⟩, ?_, ?_⟩
  · intro payload offset ds is_ansi bc blk h hbt
    unfold Block.init at h
    split at h
    · exact Except.noConfusion h
    split at h
    · exact Except.noConfusion h
    split at h
    · exact Except.noConfusion h
    split at h
    · unfold Block.initExternal at h
      rw [if_pos rfl] at h
      cases Except.ok.inj h
      rfl
    · exact absurd hbt (initInternal_ok_block_type _ _ _ _ _ h)
  · intro bs h
    induction bs with
    | nil => rfl
    | cons b t ih =>
      have hb : b < 256 := h b (List.mem_cons_self b t)
      have ht : ∀ x ∈ t, x < 256 := fun x hx => h x (List.mem_cons_of_mem b hx)
      simp [encrypt_decrypt_byte b hb, ih ht]

/-- Witness for C2 restoring [0, 255, 71] through the inverse table. -/
theorem ndbCryptPermute_spec_witness :
    (([0, 255, 71].map decryptByte).map encryptByte) = [0, 255, 71] :=
  ndbCryptPermute_spec.2.2.2 [0, 255, 71] (by decide)

/-- C9: a CFB header whose signature differs from D0 CF 11 E0 A1 B1 1A E1, or
whose major version is neither 3 nor 4, marks the container invalid without
raising; a header with valid signature and version that references a further
DIFAT sector (FirstDIFATSectorLocation not ENDOFCHAIN) raises the
"More than 109 DIFAT entries not supported" error; otherwise the header is
accepted. -/
theorem read_header_spec (file : List Nat) (hlen : 512 ≤ file.length) :
    (file.take 8 ≠ cfbSignature → read_header file = some .invalid) ∧
    (file.take 8 = cfbSignature →
      leUint ((file.drop 26).take 2) ≠ 3 → leUint ((file.drop 26).take 2) ≠ 4 →
      read_header file = some .invalid) ∧
    (file.take 8 = cfbSignature →
      (leUint ((file.drop 26).take 2) = 3 ∨ leUint ((file.drop 26).take 2) = 4) →
      leUint ((file.drop 68).take 4) ≠ ENDOFCHAIN →
      read_header file = some .difatUnsupported) ∧
    (file.take 8 = cfbSignature →
      (leUint ((file.drop 26).take 2) = 3 ∨ leUint ((file.drop 26).take 2) = 4) →
      leUint ((file.drop 68).take 4) = ENDOFCHAIN →
      ∃ h, read_header file = some (.valid h) ∧
        h.MajorVersion = leUint ((file.drop 26).take 2)) := by
  have h34 : ¬ (file.length < 34) := by omega
  have h512 : ¬ (file.length < 512) := by omega
  refine ⟨?_, ?_, ?_, ?_⟩
  · intro hsig
    simp [read_header, hsig]
  · intro hsig h3 h4
    simp [read_header, hsig, h34, h3, h4]
  · intro hsig hver hdifat
    have hver2 : ¬ (leUint ((file.drop 26).take 2) ≠ 3 ∧ leUint ((file.drop 26).take 2) ≠ 4) := by
      rcases hver with h | h <;> simp [h]
    simp [read_header, hsig, h34, h512, hver2, hdifat]
  · intro hsig hver hdifat
    have hver2 : ¬ (leUint ((file.drop 26).take 2) ≠ 3 ∧ leUint ((file.drop 26).take 2) ≠ 4) := by
      rcases hver with h | h <;> simp [h]
    refine ⟨{ MinorVersion := leUint ((file.drop 24).take 2)
              MajorVersion := leUint ((file.drop 26).take 2)
              FirstDirectorySectorLocation := leUint ((file.drop 48).take 4)
              MiniStreamCutoffSize := leUint ((file.drop 56).take 4)
              FirstMiniFATSectorLocation := leUint ((file.drop 60).take 4)
              MiniFATSectors := leUint ((file.drop 64).take 4)
              FirstDIFATSectorLocation := leUint ((file.drop 68).take 4)
              DIFAT := headerDIFAT file }, ?_, rfl⟩
    simp [read_header, hsig, h34, h512, hver2, hdifat]

/-- Concrete 512-byte header for the C9 witness: valid signature, major
version 3, FirstDIFATSectorLocation = 0 (a further DIFAT sector). -/
def difatTestFile : List Nat :=
  cfbSignature ++ List.replicate 18 0 ++ [3, 0] ++ List.replicate 484 0

set_option maxRecDepth 8192 in
/-- Witness for C9: the test header raises the DIFAT limitation error. -/
theorem read_header_spec_witness :
    read_header difatTestFile = some .difatUnsupported :=
  (read_header_spec difatTestFile (by decide)).2.2.1 (by decide)
    (Or.inl (by decide)) (by decide)

/-- Helper: the get_stream while-loop concatenates the sector bytes of the
walked chain after the starting accumulator. -/
theorem getStreamLoop_eq_chain (entries : List Nat) (sb : Nat → List Nat) :
    ∀ (fuel sector : Nat) (acc : List Nat),
      getStreamLoop entries sb fuel sector acc
        = (chainSectors entries fuel sector).map
            (fun secs => acc ++ (secs.map sb).flatten) := by
  intro fuel
  induction fuel with
  | zero => intro sector acc; rfl
  | succ n ih =>
    intro sector acc
    unfold getStreamLoop chainSectors
    by_cases hs : sector = ENDOFCHAIN
    · simp [hs]
    · cases hidx : entries[sector]? with
      | none => simp [hs, hidx]
      | some next =>
        cases hc : chainSectors entries n next with
        | none => simp [hs, hidx, ih next (acc ++ sb sector), hc]
        | some secs => simp [hs, hidx, ih next (acc ++ sb sector), hc]

/-- Helper: characterization of the shared size check of the two get_stream
variants: it rejects exactly the lengths outside [size, size + SectorSize]
(both bounds inclusive), and accepts with the first `size` bytes. -/
theorem streamSizeCheck_spec (SectorSize size : Nat) (stream : List Nat) :
    (streamSizeCheck SectorSize size stream = .error .fatStreamSizeMismatch ↔
      ¬ (size ≤ stream.length ∧ stream.length ≤ size + SectorSize)) ∧
    (size ≤ stream.length → stream.length ≤ size + SectorSize →
      streamSizeCheck SectorSize size stream = .ok (stream.take size)) := by
  unfold streamSizeCheck
  constructor
  · constructor
    · intro h
      intro hc
      rw [if_neg] at h
      · exact Except.noConfusion h
      · push_neg
        exact ⟨by omega, by omega⟩
    · intro h
      rw [if_pos]
      by_contra hc
      push_neg at hc
      omega
  · intro h1 h2
    rw [if_neg]
    push_neg
    constructor
    · omega
    · omega

/-- Helper: get_stream applies the size check to the chain's concatenated
bytes. -/
theorem fat_get_stream_eq (entries : List Nat) (sb : Nat → List Nat)
    (SectorSize sector size fuel : Nat) (secs : List Nat)
    (hchain : chainSectors entries fuel sector = some secs) :
    FAT.get_stream entries sb SectorSize sector size fuel
      = some (streamSizeCheck SectorSize size ((secs.map sb).flatten)) := by
  unfold FAT.get_stream
  rw [getStreamLoop_eq_chain, hchain]
  rfl

/-- C4 (amended): for every sector chain followed to ENDOFCHAIN, get_stream
raises exactly when the accumulated byte length is outside the CLOSED
interval [size, size + SectorSize] and otherwise returns the first `size`
bytes of the concatenated sector bytes; the same holds for MiniFAT with its
64-byte mini-sectors sliced from the mini stream. -/
theorem get_stream_spec (entries : List Nat) (sb : Nat → List Nat)
    (SectorSize sector size fuel : Nat) (secs : List Nat)
    (hchain : chainSectors entries fuel sector = some secs) :
    ((FAT.get_stream entries sb SectorSize sector size fuel
        = some (.error .fatStreamSizeMismatch))
      ↔ ¬ (size ≤ ((secs.map sb).flatten).length ∧
            ((secs.map sb).flatten).length ≤ size + SectorSize)) ∧
    (size ≤ ((secs.map sb).flatten).length →
      ((secs.map sb).flatten).length ≤ size + SectorSize →
      FAT.get_stream entries sb SectorSize sector size fuel
        = some (.ok (((secs.map sb).flatten).take size))) ∧
    (∀ mini : List Nat,
      ((MiniFAT.get_stream entries mini sector size fuel
          = some (.error .fatStreamSizeMismatch))
        ↔ ¬ (size ≤ ((secs.map (fun s => (mini.drop (s * 64)).take 64)).flatten).length ∧
              ((secs.map (fun s => (mini.drop (s * 64)).take 64)).flatten).length ≤ size + 64)) ∧
      (size ≤ ((secs.map (fun s => (mini.drop (s * 64)).take 64)).flatten).length →
        ((secs.map (fun s => (mini.drop (s * 64)).take 64)).flatten).length ≤ size + 64 →
        MiniFAT.get_stream entries mini sector size fuel
          = some (.ok (((secs.map (fun s => (mini.drop (s * 64)).take 64)).flatten).take size)))) := by
  refine ⟨?_, ?_, ?_⟩
  · rw [fat_get_stream_eq entries sb SectorSize sector size fuel secs hchain]
    rw [Option.some_inj]
    exact (streamSizeCheck_spec SectorSize size ((secs.map sb).flatten)).1
  · intro h1 h2
    rw [fat_get_stream_eq entries sb SectorSize sector size fuel secs hchain]
    rw [(streamSizeCheck_spec SectorSize size ((secs.map sb).flatten)).2 h1 h2]
  · intro mini
    constructor
    · rw [MiniFAT.get_stream,
        fat_get_stream_eq entries _ 64 sector size fuel secs hchain, Option.some_inj]
      exact (streamSizeCheck_spec 64 size _).1
    · intro h1 h2
      rw [MiniFAT.get_stream,
        fat_get_stream_eq entries _ 64 sector size fuel secs hchain,
        (streamSizeCheck_spec 64 size _).2 h1 h2]

set_option maxRecDepth 8192 in
/-- Witness for C4 at a one-sector chain with size = 512. -/
theorem get_stream_spec_witness :
    FAT.get_stream [ENDOFCHAIN] (fun _ => List.replicate 512 7) 512 0 512 2
      = some (.ok ((([0].map (fun _ => List.replicate 512 7)).flatten).take 512)) :=
  (get_stream_spec [ENDOFCHAIN] (fun _ => List.replicate 512 7) 512 0 512 2 [0]
    (by decide)).2.1 (by decide) (by decide)

set_option maxRecDepth 8192 in
/-- C4 counterexample to the claim as stated: a one-sector chain walked with
requested size 0 accumulates 512 bytes, a length outside the claim's
half-open interval [0, 0 + 512), yet FAT.get_stream returns successfully
(the source accepts the closed upper bound) instead of raising. -/
theorem get_stream_halfopen_counterexample :
    chainSectors [ENDOFCHAIN] 2 0 = some [0] ∧
    (([0].map (fun _ => List.replicate 512 (0 : Nat))).flatten).length = 512 ∧
    FAT.get_stream [ENDOFCHAIN] (fun _ => List.replicate 512 0) 512 0 0 2
      = some (.ok []) ∧
    ¬ ((0 : Nat) ≤ 512 ∧ (512 : Nat) < 0 + 512) := by
  exact ⟨by decide, by decide, rfl, by decide⟩

set_option maxHeartbeats 1600000 in
/-- C6: for every ANSI PST block, SLBLOCK (block_type 3) and SIBLOCK
(block_type 4) entry parsing begins at payload offset 4 — immediately after
the 4-byte (btype, cLevel, cEnt) block header, not at offset 8 — while for
Unicode it begins at offset 8; the records parsed there are the SLENTRY
{nid, bidData, bidSub} and SIENTRY {nid, bid} records of the respective
entry widths (ANSI 12/8, Unicode 24/16). -/
theorem slsi_entry_offsets (payload : List Nat) (offset ds : Nat)
    (bc : BIDm) (crypt : Nat) (blk : Blockm) :
    (Block.init payload offset ds true bc crypt = .ok blk →
      blk.block_type = 3 →
      (parseEntries SLENTRY.ofBytes payload 4 12
          (leUint ((payload.drop 2).take 2))).map
        (fun es => BlockContent.subnode (es.map SLSIEntry.sl)) = some blk.content) ∧
    (Block.init payload offset ds true bc crypt = .ok blk →
      blk.block_type = 4 →
      (parseEntries SIENTRY.ofBytes payload 4 8
          (leUint ((payload.drop 2).take 2))).map
        (fun es => BlockContent.subnode (es.map SLSIEntry.si)) = some blk.content) ∧
    (Block.init payload offset ds false bc crypt = .ok blk →
      blk.block_type = 3 →
      (parseEntries SLENTRY.ofBytes payload 8 24
          (leUint ((payload.drop 2).take 2))).map
        (fun es => BlockContent.subnode (es.map SLSIEntry.sl)) = some blk.content) ∧
    (Block.init payload offset ds false bc crypt = .ok blk →
      blk.block_type = 4 →
      (parseEntries SIENTRY.ofBytes payload 8 16
          (leUint ((payload.drop 2).take 2))).map
        (fun es => BlockContent.subnode (es.map SLSIEntry.si)) = some blk.content) := by
  refine ⟨?_, ?_, ?_, ?_⟩ <;>
    (intro h hbt
     unfold Block.init Block.initExternal Block.initInternal at h
     dsimp only at h
     simp only [eq_self_iff_true, if_true, Bool.false_eq_true, if_false] at h
     repeat' split at h
     all_goals first
       | exact Except.noConfusion h
       | (cases Except.ok.inj h; simp_all))

/-- Concrete 64-byte ANSI SLBLOCK payload for the C6 witness: header
(btype 2, cLevel 0, cEnt 1), one SLENTRY at offset 4, ANSI trailer with
cb = 40 and internal bid 6. -/
def slsiTestPayload : List Nat :=
  [2, 0, 1, 0, 1, 0, 0, 0, 4, 0, 0, 0] ++ List.replicate 40 0 ++
    [40, 0, 0, 0, 6, 0, 0, 0, 0, 0, 0, 0]

set_option maxRecDepth 8192 in
set_option maxHeartbeats 1000000 in
/-- Witness for C6 on the test SLBLOCK: its single entry is parsed at payload
offset 4 as an SLENTRY. -/
theorem slsi_entry_offsets_witness :
    (parseEntries SLENTRY.ofBytes slsiTestPayload 4 12
        (leUint ((slsiTestPayload.drop 2).take 2))).map
      (fun es => BlockContent.subnode (es.map SLSIEntry.sl))
      = some (Blockm.mk 40 0 0 ⟨6, true⟩ 0 3 2 0
          (.subnode [.sl ⟨⟨1, 1, 0⟩, ⟨4, false⟩, ⟨0, false⟩⟩])).content :=
  (slsi_entry_offsets slsiTestPayload 0 40 ⟨6, true⟩ 0
    (Blockm.mk 40 0 0 ⟨6, true⟩ 0 3 2 0
      (.subnode [.sl ⟨⟨1, 1, 0⟩, ⟨4, false⟩, ⟨0, false⟩⟩]))).1 (by decide) (by decide)

/-- Helper: a successfully parsed trailer needs at least 12 payload bytes
(16 for Unicode). -/
theorem blockTrailer_some_length (payload : List Nat) (is_ansi : Bool)
    (t : BlockTrailer) (h : blockTrailer payload is_ansi = some t) :
    12 ≤ payload.length := by
  unfold blockTrailer at h
  split at h
  · split at h
    · exact Option.noConfusion h
    · rename_i hlen
      omega
  · split at h
    · exact Option.noConfusion h
    · rename_i hlen
      omega

/-- Helper: the BID parse succeeds exactly on slices of 4 or 8 bytes. -/
theorem BID_ofBytes_isSome (bs : List Nat)
    (h : bs.length = 4 ∨ bs.length = 8) : (BID.ofBytes bs).isSome = true := by
  unfold BID.ofBytes
  rw [if_pos h]
  rfl

/-- Helper: the SLENTRY parse succeeds on slices of 12 or 24 bytes. -/
theorem SLENTRY_ofBytes_isSome (bs : List Nat)
    (h : bs.length = 12 ∨ bs.length = 24) : (SLENTRY.ofBytes bs).isSome = true := by
  rcases h with h | h
  · unfold SLENTRY.ofBytes
    rw [if_pos h]
    have h1 : ((bs.drop 4).take 4).length = 4 := by
      simp [List.length_take, List.length_drop, h]
    have h2 : ((bs.drop 8).take 4).length = 4 := by
      simp [List.length_take, List.length_drop, h]
    obtain ⟨b1, hb1⟩ := Option.isSome_iff_exists.mp (BID_ofBytes_isSome _ (Or.inl h1))
    obtain ⟨b2, hb2⟩ := Option.isSome_iff_exists.mp (BID_ofBytes_isSome _ (Or.inl h2))
    rw [hb1, hb2]
    rfl
  · unfold SLENTRY.ofBytes
    rw [if_neg (by omega), if_pos h]
    have h1 : ((bs.drop 8).take 8).length = 8 := by
      simp [List.length_take, List.length_drop, h]
    have h2 : ((bs.drop 16).take 8).length = 8 := by
      simp [List.length_take, List.length_drop, h]
    obtain ⟨b1, hb1⟩ := Option.isSome_iff_exists.mp (BID_ofBytes_isSome _ (Or.inr h1))
    obtain ⟨b2, hb2⟩ := Option.isSome_iff_exists.mp (BID_ofBytes_isSome _ (Or.inr h2))
    rw [hb1, hb2]
    rfl

/-- Helper: the SIENTRY parse succeeds on slices of 8 or 16 bytes. -/
theorem SIENTRY_ofBytes_isSome (bs : List Nat)
    (h : bs.length = 8 ∨ bs.length = 16) : (SIENTRY.ofBytes bs).isSome = true := by
  rcases h with h | h
  · unfold SIENTRY.ofBytes
    rw [if_pos h]
    have h1 : ((bs.drop 4).take 4).length = 4 := by
      simp [List.length_take, List.length_drop, h]
    obtain ⟨b1, hb1⟩ := Option.isSome_iff_exists.mp (BID_ofBytes_isSome _ (Or.inl h1))
    rw [hb1]
    rfl
  · unfold SIENTRY.ofBytes
    rw [if_neg (by omega), if_pos h]
    have h1 : ((bs.drop 8).take 8).length = 8 := by
      simp [List.length_take, List.length_drop, h]
    obtain ⟨b1, hb1⟩ := Option.isSome_iff_exists.mp (BID_ofBytes_isSome _ (Or.inr h1))
    rw [hb1]
    rfl

/-- Helper: when the declared entries all lie within the payload, every entry
slice has its full width. -/
theorem slice_full_of_span (payload : List Nat) (off size cEnt j : Nat)
    (hj : j < cEnt) (hspan : off + cEnt * size ≤ payload.length) :
    ((payload.drop (off + j * size)).take size).length = size := by
  have h1 : (j + 1) * size ≤ cEnt * size :=
    Nat.mul_le_mul_right size (Nat.succ_le_of_lt hj)
  have h2 : (j + 1) * size = j * size + size := by ring
  simp only [List.length_take, List.length_drop]
  omega

/-- Helper: the entry loop succeeds when every slice it visits parses. -/
theorem parseEntriesAux_some {α : Type} (parse : List Nat → Option α)
    (payload : List Nat) (off size : Nat) :
    ∀ (n i : Nat),
      (∀ j, j < n →
        ((payload.drop (off + (i + j) * size)).take size).length = size) →
      (∀ bs : List Nat, bs.length = size → (parse bs).isSome = true) →
      ∃ l, parseEntriesAux parse payload off size i n = some l := by
  intro n
  induction n with
  | zero =>
    intro i _ _
    exact ⟨[], rfl⟩
  | succ m ih =>
    intro i hslice hparse
    have h0 : ((payload.drop (off + i * size)).take size).length = size := by
      have h00 := hslice 0 (Nat.succ_pos m)
      simpa using h00
    obtain ⟨e, he⟩ := Option.isSome_iff_exists.mp (hparse _ h0)
    obtain ⟨l, hl⟩ := ih (i + 1)
      (fun j hj => by
        have hs := hslice (j + 1) (Nat.succ_lt_succ hj)
        have heq : i + (j + 1) = (i + 1) + j := by omega
        rw [heq] at hs
        exact hs)
      hparse
    refine ⟨e :: l, ?_⟩
    unfold parseEntriesAux
    rw [he, hl]
    rfl

/-- Helper: the entry loop succeeds whenever the declared entries fit in the
payload. -/
theorem parseEntries_some_of_span {α : Type} (parse : List Nat → Option α)
    (payload : List Nat) (off size cEnt : Nat)
    (hparse : ∀ bs : List Nat, bs.length = size → (parse bs).isSome = true)
    (hspan : off + cEnt * size ≤ payload.length) :
    ∃ l, parseEntries parse payload off size cEnt = some l := by
  apply parseEntriesAux_some
  · intro j hj
    have hs := slice_full_of_span payload off size cEnt j hj hspan
    simpa using hs
  · exact hparse

/-- C5 (amended): for every block fetched through the BBT, construction
raises when the trailer's bid differs from the requested bid or (bid
matching) when the trailer's cb differs from the BBT entry's cb; decoding an
external data block raises when the crypt method is neither Unencoded (0)
nor NDB_CRYPT_PERMUTE (1); an internal block whose (btype, cLevel) header is
not one of the four valid shapes (1,1), (1,2), (2,0), (2,1) also raises;
when none of these conditions hold — and, for an internal block, its
declared entries all lie within the read payload, so that no record unpack
hits a short slice (struct.error) — the fetch succeeds. -/
theorem fetch_block_spec (file : List Nat) (bbt : Nat → Option (Nat × Nat))
    (is_ansi : Bool) (crypt : Nat) (bid : BIDm) (offset data_size : Nat)
    (payload : List Nat) (t : BlockTrailer)
    (hbbt : bbt bid.bid = some (offset, data_size))
    (hpayload : payload = (file.drop offset).take (blockReadSize is_ansi data_size))
    (ht : blockTrailer payload is_ansi = some t) :
    (t.bid.bid ≠ bid.bid →
      NBD.fetch_block file bbt is_ansi crypt bid = .error .blockBidMismatch) ∧
    (t.bid.bid = bid.bid → data_size ≠ t.cb →
      NBD.fetch_block file bbt is_ansi crypt bid = .error .blockSizeMismatch) ∧
    (t.bid.bid = bid.bid → data_size = t.cb → t.bid.is_internal = false →
      crypt ≠ CryptUnencoded → crypt ≠ CryptPermute →
      NBD.fetch_block file bbt is_ansi crypt bid = .error .unsupportedEncryption) ∧
    (t.bid.bid = bid.bid → data_size = t.cb → t.bid.is_internal = false →
      (crypt = CryptUnencoded ∨ crypt = CryptPermute) →
      ∃ blk, NBD.fetch_block file bbt is_ansi crypt bid = .ok blk) ∧
    (t.bid.bid = bid.bid → data_size = t.cb → t.bid.is_internal = true →
      ((payload.getD 0 0 = 1 ∧ (payload.getD 1 0 = 1 ∨ payload.getD 1 0 = 2) ∧
          8 + leUint ((payload.drop 2).take 2) * (if is_ansi then 4 else 8)
            ≤ payload.length) ∨
       (payload.getD 0 0 = 2 ∧ payload.getD 1 0 = 0 ∧
          (if is_ansi then 4 else 8)
              + leUint ((payload.drop 2).take 2) * (if is_ansi then 12 else 24)
            ≤ payload.length) ∨
       (payload.getD 0 0 = 2 ∧ payload.getD 1 0 = 1 ∧
          (if is_ansi then 4 else 8)
              + leUint ((payload.drop 2).take 2) * (if is_ansi then 8 else 16)
            ≤ payload.length)) →
      ∃ blk, NBD.fetch_block file bbt is_ansi crypt bid = .ok blk) ∧
    (t.bid.bid = bid.bid → data_size = t.cb → t.bid.is_internal = true →
      ¬ ((payload.getD 0 0 = 1 ∧ (payload.getD 1 0 = 1 ∨ payload.getD 1 0 = 2)) ∨
         (payload.getD 0 0 = 2 ∧ (payload.getD 1 0 = 0 ∨ payload.getD 1 0 = 1))) →
      (NBD.fetch_block file bbt is_ansi crypt bid = .error .invalidBlockLevel ∨
       NBD.fetch_block file bbt is_ansi crypt bid = .error .invalidBlockType)) := by
  have hfb : NBD.fetch_block file bbt is_ansi crypt bid
      = Block.init payload offset data_size is_ansi bid crypt := by
    unfold NBD.fetch_block
    rw [hbbt, hpayload]
  have hinit : Block.init payload offset data_size is_ansi bid crypt
      = (if t.bid.bid ≠ bid.bid then .error .blockBidMismatch
         else if data_size ≠ t.cb then .error .blockSizeMismatch
         else if ¬ t.bid.is_internal then
           Block.initExternal payload offset data_size t crypt
         else Block.initInternal payload offset is_ansi t) := by
    unfold Block.init
    rw [ht]
  have hlen12 : 12 ≤ payload.length := blockTrailer_some_length payload is_ansi t ht
  refine ⟨?_, ?_, ?_, ?_, ?_, ?_⟩
  · intro h1
    rw [hfb, hinit, if_pos h1]
  · intro h1 h2
    rw [hfb, hinit, if_neg (by simp [h1]), if_pos h2]
  · intro h1 h2 h3 h4 h5
    rw [hfb, hinit, if_neg (by simp [h1]), if_neg (by simp [h2]),
      if_pos (by simp [h3])]
    unfold Block.initExternal
    rw [if_neg h5, if_neg h4]
  · intro h1 h2 h3 h4
    rw [hfb, hinit, if_neg (by simp [h1]), if_neg (by simp [h2]),
      if_pos (by simp [h3])]
    unfold Block.initExternal
    rcases h4 with h | h <;> subst h
    · exact ⟨_, by rw [if_neg (by decide), if_pos rfl]⟩
    · exact ⟨_, by rw [if_pos rfl]⟩
  · intro h1 h2 h3 h4
    rw [hfb, hinit, if_neg (by simp [h1]), if_neg (by simp [h2]),
      if_neg (by simp [h3])]
    unfold Block.initInternal
    dsimp only
    rw [if_neg (by omega)]
    rcases h4 with ⟨hb, hc, hspan⟩ | ⟨hb, hc, hspan⟩ | ⟨hb, hc, hspan⟩
    · rw [if_pos hb, if_neg (by omega), if_pos hc]
      obtain ⟨rgbid, hrg⟩ := parseEntries_some_of_span BID.ofBytes payload 8
        (if is_ansi then 4 else 8) (leUint ((payload.drop 2).take 2))
        (fun bs hbs => BID_ofBytes_isSome bs
          (by cases is_ansi <;> simp_all))
        hspan
      rw [hrg]
      rcases hc with hc | hc <;> (simp only [hc]; exact ⟨_, rfl⟩)
    · rw [if_neg (by rw [hb]; decide), if_pos hb, if_pos hc]
      obtain ⟨es, hes⟩ := parseEntries_some_of_span SLENTRY.ofBytes payload
        (if is_ansi then 4 else 8) (if is_ansi then 12 else 24)
        (leUint ((payload.drop 2).take 2))
        (fun bs hbs => SLENTRY_ofBytes_isSome bs
          (by cases is_ansi <;> simp_all))
        hspan
      rw [hes]
      exact ⟨_, rfl⟩
    · rw [if_neg (by rw [hb]; decide), if_pos hb, if_neg (by rw [hc]; decide),
        if_pos hc]
      obtain ⟨es, hes⟩ := parseEntries_some_of_span SIENTRY.ofBytes payload
        (if is_ansi then 4 else 8) (if is_ansi then 8 else 16)
        (leUint ((payload.drop 2).take 2))
        (fun bs hbs => SIENTRY_ofBytes_isSome bs
          (by cases is_ansi <;> simp_all))
        hspan
      rw [hes]
      exact ⟨_, rfl⟩
  · intro h1 h2 h3 h4
    push_neg at h4
    rw [hfb, hinit, if_neg (by simp [h1]), if_neg (by simp [h2]),
      if_neg (by simp [h3])]
    unfold Block.initInternal
    dsimp only
    rw [if_neg (by omega)]
    by_cases hb1 : payload.getD 0 0 = 1
    · left
      have hc := h4.1 hb1
      rw [if_pos hb1, if_neg (by omega),
        if_neg (by rintro (h | h) <;> [exact hc.1 h; exact hc.2 h])]
    · by_cases hb2 : payload.getD 0 0 = 2
      · left
        have hc := h4.2 hb2
        rw [if_neg hb1, if_pos hb2, if_neg hc.1, if_neg hc.2]
      · right
        rw [if_neg hb1, if_neg hb2]

/-- Concrete 64-byte ANSI internal block with invalid btype 5: header bytes
(5, 0, cEnt 0), ANSI trailer with cb = 4 and internal bid 2. -/
def cexBlockFile : List Nat :=
  [5, 0, 0, 0] ++ List.replicate 48 0 ++ [4, 0, 0, 0, 2, 0, 0, 0, 0, 0, 0, 0]

/-- BBT map of the C5 counterexample: bid 2 at offset 0 with cb 4. -/
def cexBbt : Nat → Option (Nat × Nat) :=
  fun b => if b = 2 then some (0, 4) else none

set_option maxRecDepth 8192 in
set_option maxHeartbeats 1000000 in
/-- C5 counterexample to the claim as stated: for this block fetched through
the BBT the trailer bid equals the requested bid (2), the trailer cb equals
the BBT entry's cb (4), and the block is internal so the external-crypt
condition is vacuous — none of the claim's error conditions hold — yet the
fetch raises (invalid internal btype 5) instead of succeeding. -/
theorem fetch_block_shape_counterexample :
    NBD.fetch_block cexBlockFile cexBbt true 0 ⟨2, true⟩ = .error .invalidBlockType ∧
    blockTrailer cexBlockFile true = some ⟨4, 0, 0, ⟨2, true⟩⟩ ∧
    cexBbt 2 = some (0, 4) :=
  ⟨by decide, by decide, by decide⟩

/-- BBT map of the C5 witness: bid 6 at offset 0 with cb 40. -/
def c5Bbt : Nat → Option (Nat × Nat) :=
  fun b => if b = 6 then some (0, 40) else none

set_option maxRecDepth 8192 in
set_option maxHeartbeats 1000000 in
/-- Witness for C5 on the valid SLBLOCK test payload: the fetch succeeds. -/
theorem fetch_block_spec_witness :
    ∃ blk, NBD.fetch_block slsiTestPayload c5Bbt true 0 ⟨6, true⟩ = .ok blk :=
  (fetch_block_spec slsiTestPayload c5Bbt true 0 ⟨6, true⟩ 0 40 slsiTestPayload
      ⟨40, 0, 0, ⟨6, true⟩⟩ (by decide) (by decide) (by decide)).2.2.2.2.1
    (by decide) (by decide) (by decide)
    (Or.inr (Or.inl ⟨by decide, by decide, by decide⟩))

/-- Helper: looking up the key just inserted. -/
theorem dictLookup_insert_self {α : Type} (k : Nat) (v : α) :
    ∀ l : List (Nat × α), dictLookup k (dictInsert k v l) = some v := by
  intro l
  induction l with
  | nil => simp [dictInsert, dictLookup]
  | cons p rest ih =>
    by_cases hk : p.1 = k
    · simp [dictInsert, hk, dictLookup]
    · simpa [dictInsert, hk, dictLookup] using ih

/-- Helper: inserting a different key does not change a lookup. -/
theorem dictLookup_insert_ne {α : Type} (k k0 : Nat) (hk : k ≠ k0) (v : α) :
    ∀ l : List (Nat × α), dictLookup k (dictInsert k0 v l) = dictLookup k l := by
  intro l
  induction l with
  | nil => simp [dictInsert, dictLookup, Ne.symm hk]
  | cons p rest ih =>
    obtain ⟨k1, v1⟩ := p
    by_cases hp : k1 = k0
    · rw [dictInsert, if_pos hp, dictLookup, if_neg (Ne.symm hk), dictLookup,
        if_neg (by rw [hp]; exact Ne.symm hk)]
    · rw [dictInsert, if_neg hp, dictLookup, dictLookup, ih]

/-- Helper: a successful row build never overwrites an existing binding. -/
theorem buildRowVals_preserves (env : TCEnv) (row_bytes : List Nat) (rgib : RGIB) :
    ∀ (cols : List TCOLDESCm) (acc out : List (Nat × Option (Nat × List Nat))),
      buildRowVals env row_bytes rgib cols acc = .ok out →
      ∀ (k : Nat) (v : Option (Nat × List Nat)),
        dictLookup k acc = some v → dictLookup k out = some v := by
  intro cols
  induction cols with
  | nil =>
    intro acc out h k v hacc
    cases Except.ok.inj h
    exact hacc
  | cons t rest ih =>
    intro acc out h k v hacc
    unfold buildRowVals at h
    split at h
    · exact Except.noConfusion h
    · rename_i hdup
      split at h
      · exact Except.noConfusion h
      · rename_i v0 hv0
        have hk : k ≠ t.wPropId := by
          intro he
          apply hdup
          rw [← he, hacc]
          rfl
        exact ih _ _ h k v (by rw [dictLookup_insert_ne k t.wPropId hk v0 acc]; exact hacc)

/-- Helper: in a successfully built row, every column whose existence bit is
clear is bound to the null value in the row's property map. -/
theorem buildRowVals_absent_null (env : TCEnv) (row_bytes : List Nat) (rgib : RGIB) :
    ∀ (cols : List TCOLDESCm) (acc out : List (Nat × Option (Nat × List Nat))),
      buildRowVals env row_bytes rgib cols acc = .ok out →
      ∀ c ∈ cols, is_fCEB row_bytes rgib c.iBit = false →
        dictLookup c.wPropId out = some none := by
  intro cols
  induction cols with
  | nil =>
    intro acc out h c hc
    exact absurd hc (List.not_mem_nil c)
  | cons t rest ih =>
    intro acc out h c hc hbit
    unfold buildRowVals at h
    split at h
    · exact Except.noConfusion h
    · split at h
      · exact Except.noConfusion h
      · rename_i v0 hv0
        rcases List.mem_cons.mp hc with rfl | hmem
        · have hnone : cell_data_bytes row_bytes rgib c = none := by
            unfold cell_data_bytes
            rw [hbit]
            rfl
          rw [hnone] at hv0
          have h2 : (Except.ok (none : Option (Nat × List Nat)) : Except PError _)
              = .ok v0 := hv0
          cases Except.ok.inj h2
          exact buildRowVals_preserves env row_bytes rgib rest _ out h c.wPropId none
            (dictLookup_insert_self c.wPropId none acc)
        · exact ih _ _ h c hmem hbit

/-- C3 (amended): for every Table Context row, a column's cell is decoded
when and only when bit iBit of the cell-existence bitmap located at row
offset rgib[TCI_1b] (not rgib[TCI_bm], which is the row width) is set,
tested as (bitmap[iBit/8] & (1 << (7 - iBit%8))) != 0; every absent cell
yields a null value in the row's property map. -/
theorem tc_cell_presence_spec (env : TCEnv) (row_bytes : List Nat) (rgib : RGIB)
    (t : TCOLDESCm) :
    ((cell_data_bytes row_bytes rgib t).isSome = true ↔
      is_fCEB row_bytes rgib t.iBit = true) ∧
    (is_fCEB row_bytes rgib t.iBit = true →
      cell_data_bytes row_bytes rgib t
        = some ((row_bytes.drop t.ibData).take t.cbData)) ∧
    (get_row_cell_value env none t = .ok none) ∧
    (∀ (cols : List TCOLDESCm) (out : List (Nat × Option (Nat × List Nat))),
      buildRowVals env row_bytes rgib cols [] = .ok out →
      ∀ c ∈ cols, is_fCEB row_bytes rgib c.iBit = false →
        dictLookup c.wPropId out = some none) := by
  refine ⟨?_, ?_, rfl, ?_⟩
  · unfold cell_data_bytes
    by_cases hbit : is_fCEB row_bytes rgib t.iBit = true
    · rw [if_pos hbit]
      simp [hbit]
    · rw [if_neg hbit]
      simp [hbit]
  · intro hbit
    unfold cell_data_bytes
    rw [if_pos hbit]
  · intro cols out h c hmem hbit
    exact buildRowVals_absent_null env row_bytes rgib cols [] out h c hmem hbit

/-- Trivial HN environment for concrete TC evaluations. -/
def tcTestEnv : TCEnv :=
  ⟨fun _ => [], [], fun _ => []⟩

/-- Witness for C3 on a one-column row whose existence bit is clear: the
built row maps the column's property id to null. -/
theorem tc_cell_presence_spec_witness :
    dictLookup 0x37 [(0x37, (none : Option (Nat × List Nat)))] = some none :=
  (tc_cell_presence_spec tcTestEnv [1, 0, 0, 0, 0] ⟨4, 4, 4, 5⟩
      ⟨3, 0x37, 0, 4, 0⟩).2.2.2 [⟨3, 0x37, 0, 4, 0⟩]
    [(0x37, none)] rfl ⟨3, 0x37, 0, 4, 0⟩ (List.mem_singleton.mpr rfl) (by decide)

/-- C3 counterexample to the claim as stated: the row [1,0,0,0,128] with
rgib = (4,4,4,5) is exactly rgib[TCI_bm] = 5 bytes wide, as sliced by
setup_row_matrix.  The source's bitmap at row offset rgib[TCI_1b] = 4 has
bit 0 set, so the cell of a column with iBit = 0 IS decoded (its data bytes
are extracted); but the bitmap the claim names, at row offset
rgib[TCI_bm] = 5, lies past the row's end, so bit 0 of it is clear and the
claim predicts an absent, null cell. -/
theorem tc_bitmap_offset_counterexample :
    is_fCEB [1, 0, 0, 0, 128] ⟨4, 4, 4, 5⟩ 0 = true ∧
    cell_data_bytes [1, 0, 0, 0, 128] ⟨4, 4, 4, 5⟩ ⟨3, 0x37, 0, 4, 0⟩
      = some [1, 0, 0, 0] ∧
    is_fCEB_claimed [1, 0, 0, 0, 128] ⟨4, 4, 4, 5⟩ 0 = false := by
  refine ⟨by decide, by decide, by decide⟩

/-- The heap of the C1 failing input: HID (block 0, index 1) holds the BTH
header (bType 0xB5, cbKey 2, cbEnt 6, bIdxLevels 1, hidRoot = index 2);
HID index 2 holds the root page with a single intermediate record pointing
at HID index 3; HID index 3 holds a single leaf record (key [1,0],
data [9,9,9,9,9,9]). -/
def bthBugHid : HIDm → List Nat := fun h =>
  if h.hidBlockIndex = 0 ∧ h.hidIndex = 1 then [0xB5, 2, 6, 1, 64, 0, 0, 0]
  else if h.hidBlockIndex = 0 ∧ h.hidIndex = 2 then [0, 0, 96, 0, 0, 0]
  else if h.hidBlockIndex = 0 ∧ h.hidIndex = 3 then [1, 0, 9, 9, 9, 9, 9, 9]
  else []

/-- C1 (code-bug evidence): on a BTH with bIdxLevels = 1 whose root page has
one intermediate record pointing at a leaf page holding one record, the
constructed bth_data_list is EMPTY: the working-stack loop pops the root's
intermediate, fetches and re-parses the leaf payload into the local
bth_record_list, but then extends the result with the stale bth_data_list
that was split from the ROOT payload (which contains no leaf records), so
the traversal never collects any leaf.  The second and third conjuncts show
the tree really has the intermediate record and the leaf record; the fourth
is what a correct level-by-level descent would return. -/
theorem bth_traversal_drops_leaves :
    BTH.init bthBugHid ⟨0, 1, 0⟩ 10
      = some (.ok ⟨0xB5, 2, 6, 1, ⟨0, 2, 0⟩, []⟩) ∧
    get_bth_records 2 6 (bthBugHid ⟨0, 2, 0⟩) 1
      = [.inter [0, 0] ⟨0, 3, 0⟩ 1] ∧
    bthDataOf (get_bth_records 2 6 (bthBugHid ⟨0, 3, 0⟩) 0)
      = [([1, 0], [9, 9, 9, 9, 9, 9])] ∧
    bthLevel1LeafRecords bthBugHid 2 6 [([0, 0], ⟨0, 3, 0⟩, 1)]
      = [([1, 0], [9, 9, 9, 9, 9, 9])] := by
  refine ⟨by decide, by decide, by decide, by decide⟩

/-- Helper: a constructed PropertyEntry records the allocation id it was
built with. -/
theorem propertyEntry_init_allocId (env : MsgStorageEnv) (i : Nat) (bs : List Nat)
    (e : PropertyEntrym) (h : PropertyEntry.init env i bs = .ok e) :
    e.allocId = i := by
  unfold PropertyEntry.init at h
  dsimp only at h
  repeat' split at h
  all_goals first
    | exact Except.noConfusion h
    | (cases Except.ok.inj h; rfl)

/-- Helper: joining the per-index streams never raises the
duplicate-PropertyID error. -/
theorem joinIndexStreams_no_dup (env : MsgStorageEnv) (tag : Nat) :
    ∀ n, joinIndexStreams env tag n ≠ .error .duplicatePropertyID := by
  intro n
  induction n with
  | zero => simp [joinIndexStreams]
  | succ m ih =>
    unfold joinIndexStreams
    split
    · rename_i e heq
      intro hc
      cases Except.error.inj hc
      exact ih heq
    · split
      · simp
      · simp

/-- Helper: constructing one PropertyEntry never raises the
duplicate-PropertyID error (its error sites are different). -/
theorem propertyEntry_init_no_dup (env : MsgStorageEnv) (i : Nat) (bs : List Nat) :
    PropertyEntry.init env i bs ≠ .error .duplicatePropertyID := by
  unfold PropertyEntry.init
  dsimp only
  repeat' split
  all_goals try simp
  all_goals intro hc
  all_goals cases hc
  all_goals exact joinIndexStreams_no_dup _ _ _ (by assumption)

/-- Helper: dictInsert adds the new pair or keeps pairs of the old list. -/
theorem dictInsert_mem {α : Type} (k : Nat) (v : α) :
    ∀ (l : List (Nat × α)) (p : Nat × α),
      p ∈ dictInsert k v l → p = (k, v) ∨ p ∈ l := by
  intro l
  induction l with
  | nil =>
    intro p hp
    rw [dictInsert] at hp
    left
    exact List.mem_singleton.mp hp
  | cons q rest ih =>
    intro p hp
    obtain ⟨k1, v1⟩ := q
    by_cases h1 : k1 = k
    · rw [dictInsert, if_pos h1] at hp
      rcases List.mem_cons.mp hp with rfl | hm
      · left; rfl
      · right; exact List.mem_cons_of_mem _ hm
    · rw [dictInsert, if_neg h1] at hp
      rcases List.mem_cons.mp hp with rfl | hm
      · right; exact List.mem_cons_self _ _
      · rcases ih p hm with h | h
        · left; exact h
        · right; exact List.mem_cons_of_mem _ h

/-- Helper: the record loop never raises the duplicate error, because the
membership test compares object identities and every stored entry was
allocated with a strictly smaller id than the fresh entry. -/
theorem propStreamLoop_no_dup (env : MsgStorageEnv) (bytes : List Nat) (hs : Nat) :
    ∀ (remaining i : Nat) (dict : List (Nat × PropertyEntrym)),
      (∀ p ∈ dict, (Prod.snd p).allocId < i) →
      propStreamLoop env bytes hs remaining i dict ≠ .error .duplicatePropertyID := by
  intro remaining
  induction remaining with
  | zero =>
    intro i dict hd
    simp [propStreamLoop]
  | succ n ih =>
    intro i dict hd
    unfold propStreamLoop
    split
    · rename_i e heq
      intro hc
      cases Except.error.inj hc
      exact propertyEntry_init_no_dup env i _ heq
    · rename_i pe hpe
      split
      · rename_i hmem
        exfalso
        have hidpe : pe.allocId = i := propertyEntry_init_allocId env i _ pe hpe
        unfold identityMem at hmem
        rw [List.any_eq_true] at hmem
        obtain ⟨v, hv, hveq⟩ := hmem
        obtain ⟨p, hp, rfl⟩ := List.mem_map.mp hv
        have hlt := hd p hp
        have heq : p.2.allocId = pe.allocId := of_decide_eq_true hveq
        omega
      · apply ih
        intro p hp
        rcases dictInsert_mem pe.PropertyID pe dict p hp with rfl | hmem2
        · have : pe.allocId = i := propertyEntry_init_allocId env i _ pe hpe
          simp [this]
        · exact Nat.lt_succ_of_lt (hd p hmem2)

/-- C10: a CFB property stream containing two 16-byte records with the same
PropertyId constructs successfully — the duplicate check compares freshly
constructed entry objects by identity and never fires, on ANY input — and
the later record's entry silently replaces the earlier one in the
properties dictionary. -/
theorem propStream_duplicate_spec (env : MsgStorageEnv) (hs : Nat)
    (bytes : List Nat) (e1 e2 : PropertyEntrym)
    (hne : bytes.isEmpty = false)
    (hlen : bytes.length = hs + 32)
    (h1 : PropertyEntry.init env 0 ((bytes.drop hs).take 16) = .ok e1)
    (h2 : PropertyEntry.init env 1 ((bytes.drop (hs + 16)).take 16) = .ok e2)
    (hid : e1.PropertyID = e2.PropertyID) :
    PropertyStream.init env hs bytes = .ok [(e2.PropertyID, e2)] ∧
    (∀ (env2 : MsgStorageEnv) (hs2 : Nat) (bytes2 : List Nat),
      PropertyStream.init env2 hs2 bytes2 ≠ .error .duplicatePropertyID) := by
  have ha1 : e1.allocId = 0 := propertyEntry_init_allocId env 0 _ e1 h1
  have ha2 : e2.allocId = 1 := propertyEntry_init_allocId env 1 _ e2 h2
  have hsub : bytes.length - hs = 32 := by omega
  constructor
  · unfold PropertyStream.init
    rw [if_neg (by rw [hne]; decide), hsub]
    rw [if_neg (by decide)]
    show propStreamLoop env bytes hs (32 / 16) 0 [] = _
    norm_num
    unfold propStreamLoop
    have e0 : hs + 0 * 16 = hs := by omega
    rw [e0, h1]
    dsimp only
    rw [if_neg (by simp [identityMem])]
    unfold propStreamLoop
    have e1o : hs + 1 * 16 = hs + 16 := by omega
    rw [e1o, h2]
    dsimp only
    rw [if_neg (by simp [identityMem, dictInsert, ha1, ha2])]
    unfold propStreamLoop
    rw [show dictInsert e1.PropertyID e1 [] = [(e1.PropertyID, e1)] from rfl]
    rw [dictInsert, if_pos hid]
  · intro env2 hs2 bytes2
    unfold PropertyStream.init
    split
    · simp
    · split
      · simp
      · exact propStreamLoop_no_dup env2 bytes2 hs2 _ 0 [] (by simp)

/-- Trivial storage environment for concrete property-stream evaluations. -/
def msgTestEnv : MsgStorageEnv :=
  ⟨fun _ => none, fun _ _ => none⟩

/-- Two 16-byte PtypInteger32 records with the same property id 0x3001 and
values 1 and 2 respectively. -/
def msgTestBytes : List Nat :=
  [3, 0, 1, 48, 0, 0, 0, 0, 1, 0, 0, 0, 0, 0, 0, 0,
   3, 0, 1, 48, 0, 0, 0, 0, 2, 0, 0, 0, 0, 0, 0, 0]

set_option maxRecDepth 8192 in
set_option maxHeartbeats 1000000 in
/-- Witness for C10: the two-record stream constructs, and its dictionary
holds the second record's entry (value bytes [2,0,0,0]) under the shared
property id. -/
theorem propStream_duplicate_spec_witness :
    PropertyStream.init msgTestEnv 0 msgTestBytes
      = .ok [(0x3001, ⟨1, 0x30010003, 0, 0x3001, 3, 4, [2, 0, 0, 0]⟩)] :=
  (propStream_duplicate_spec msgTestEnv 0 msgTestBytes
      ⟨0, 0x30010003, 0, 0x3001, 3, 4, [1, 0, 0, 0]⟩
      ⟨1, 0x30010003, 0, 0x3001, 3, 4, [2, 0, 0, 0]⟩
      (by decide) (by decide) (by decide) (by decide) (by decide)).1

end PANhunt
